import Mathlib

/-!
Shallow embedding of the CES exhibitors crawler (src/ai_studio_code.py) and
verification of its specification claims.
-/

namespace CesCrawler

/-- ASCII characters removed by Python str.strip with no argument. -/
def pyIsSpace (c : Char) : Bool :=
  c = ' ' || c = '\t' || c = '\n' || c = '\r' || c = '\x0b' || c = '\x0c'

/-- Python value.strip: drop whitespace characters from both ends. -/
def pyStrip (l : List Char) : List Char :=
  ((l.dropWhile pyIsSpace).reverse.dropWhile pyIsSpace).reverse

/-- The literal marker substring the API appends to booth text (src line 82). -/
def rsPat : List Char := "randomstring".data

/-- One left-to-right pass of Python str.replace with replacement "", as a
fuel-indexed structural recursion.  Whenever the pattern starts at the current
position it is dropped and scanning resumes after it; otherwise the character
is kept.  Each step consumes one fuel unit and at least one input character,
so fuel equal to the input length always suffices. -/
def removeRSFuel : Nat → List Char → List Char
  | 0, l => l
  | _ + 1, [] => []
  | fuel + 1, c :: rest =>
    if rsPat.isPrefixOf (c :: rest) then removeRSFuel fuel (rest.drop (rsPat.length - 1))
    else c :: removeRSFuel fuel rest

/-- Python value.replace applied to the marker pattern with replacement "". -/
def removeRS (l : List Char) : List Char := removeRSFuel l.length l

/-- src lines 80-82: value.replace of the marker, then strip. -/
def strip_randomstring (value : String) : String := ⟨pyStrip (removeRS value.data)⟩

/-- Decides whether the marker substring occurs anywhere in the list. -/
def hasRS : List Char → Bool
  | [] => false
  | c :: rest => rsPat.isPrefixOf (c :: rest) || hasRS rest

/-- The typed source fields a hit's "fields" mapping may carry (spec section 3:
values are strings, lists of strings, or absent; `none` models an absent key). -/
structure Fields where
  boothsdisplay_la : Option (List String) := none
  hallid_la : Option (List String) := none
  exhtags_la : Option (List String) := none
  tags : Option (List String) := none
  exhid_l : Option String := none
  exhname_t : Option String := none
  exhdesc_t : Option String := none
  seekfunding_t : Option String := none
  fundingamount_t : Option String := none
  investmentstage_l : Option String := none
  revenue_t : Option String := none
  exhlogo_t : Option String := none
  exhfeatured_t : Option String := none
deriving DecidableEq

/-- A Fields value with every key absent, modelling the Python empty dict. -/
def emptyFields : Fields := {}

/-- One hit record as returned by the API; `fields := none` models a hit whose
"fields" key is absent (src line 86 defaults it to the empty dict). -/
structure Hit where
  fields : Option Fields := none
deriving DecidableEq

/-- The section of the payload at payload DATA -> results -> show
(src line 68): an optional hit list and an optional found count. -/
structure SectionResult where
  hit : Option (List Hit) := none
  found : Option Nat := none
deriving DecidableEq

/-- One JSON response payload.  `results := none` models a payload in which any
of the DATA, results, or section keys is missing, so that the chained
indexing on src line 68 raises KeyError. -/
structure Payload where
  SUCCESS : Bool
  results : Option SectionResult := none
deriving DecidableEq

/-- Outcome of a fetch_exhibitors run.  `requests` counts search requests
issued; `lastFound` and `lastBatchLen` record the server-reported found count
and the record count of the final page (instrumentation used to state the
spec's pagination invariant; they do not influence the control flow). -/
inductive FetchOutcome where
  | ok (hits : List Hit) (requests : Nat) (lastFound : Nat) (lastBatchLen : Nat)
  | searchFailed (requests : Nat)
  | keyError (requests : Nat)
  | fuelExhausted
deriving DecidableEq

/-- The while-loop body of fetch_exhibitors (src lines 47-75).  The server is
a function from the start offset to the payload it answers with; fuel bounds
the number of iterations (the Python loop has no such bound and can diverge,
which `fuelExhausted` represents). -/
def fetchLoop (server : Nat → Payload) : Nat → Nat → List Hit → Nat → FetchOutcome
  | 0, _, _, _ => .fuelExhausted
  | fuel + 1, start, hits, reqs =>
    let payload := server start
    if payload.SUCCESS = false then .searchFailed (reqs + 1)
    else
      match payload.results with
      | none => .keyError (reqs + 1)
      | some result =>
        let batch := result.hit.getD []
        let hits2 := hits ++ batch
        let total := result.found.getD hits2.length
        let start2 := start + batch.length
        if start2 ≥ total || batch.isEmpty then .ok hits2 (reqs + 1) total batch.length
        else fetchLoop server fuel start2 hits2 (reqs + 1)

/-- src lines 43-45: the loop starts at offset 0 with an empty accumulator. -/
def fetch_exhibitors (server : Nat → Payload) (fuel : Nat) : FetchOutcome :=
  fetchLoop server fuel 0 [] 0

/-- Python truthiness fallback `o or d` for an optional list value: a missing
key or a present-but-empty list both fall through to the default. -/
def pyOrList (o : Option (List String)) (d : List String) : List String :=
  match o with
  | some l => if l.isEmpty then d else l
  | none => d

/-- The flattener hit_to_row (src lines 85-106): one hit in, one ordered row
of twelve named string fields out.  Totality is by construction, matching the
spec's no-failure contract. -/
def hit_to_row (hit : Hit) : List (String × String) :=
  let fields := hit.fields.getD emptyFields
  let booths_raw := pyOrList fields.boothsdisplay_la []
  let booths := String.intercalate "; "
    ((booths_raw.filter (fun b => !b.isEmpty)).map strip_randomstring)
  let halls := String.intercalate "; " (pyOrList fields.hallid_la [])
  let tags := pyOrList fields.exhtags_la (pyOrList fields.tags [])
  [("exhibitor_id", fields.exhid_l.getD ""),
   ("name", fields.exhname_t.getD ""),
   ("booths", booths),
   ("hall", halls),
   ("description", fields.exhdesc_t.getD ""),
   ("seeking_funding", fields.seekfunding_t.getD ""),
   ("funding_amount", fields.fundingamount_t.getD ""),
   ("investment_stage", fields.investmentstage_l.getD ""),
   ("revenue", fields.revenue_t.getD ""),
   ("logo_file", fields.exhlogo_t.getD ""),
   ("featured", fields.exhfeatured_t.getD ""),
   ("tags", String.intercalate "; " tags)]

/-- Python dict lookup on a row, with the DictWriter restval "" default. -/
def rowValue (row : List (String × String)) (k : String) : String :=
  (row.lookup k).getD ""

/-- The fixed CSV column order (src lines 110-123). -/
def rowFieldnames : List String :=
  ["exhibitor_id", "name", "booths", "hall", "description", "seeking_funding",
   "funding_amount", "investment_stage", "revenue", "logo_file", "featured",
   "tags"]

/-- write_csv (src lines 109-128): header row followed by one cell row per
input row, cells taken in fieldname order. -/
def write_csv (rows : List (List (String × String))) : List (List String) :=
  rowFieldnames :: rows.map (fun row => rowFieldnames.map (fun k => rowValue row k))

/-- The fetch-flatten-write pipeline of main (src lines 162-170): `some`
carries the CSV contents written on success; any fetch failure propagates
before write_csv runs, so no output file is produced (`none`). -/
def runPipeline (server : Nat → Payload) (fuel : Nat) : Option (List (List String)) :=
  match fetch_exhibitors server fuel with
  | .ok hits _ _ _ => some (write_csv (hits.map hit_to_row))
  | _ => none

/-- A well-behaved server holding the record list recs: every page request at
offset start is answered successfully with the next page_size records and the
true total. -/
def wellBehaved (recs : List Hit) (ps : Nat) : Nat → Payload :=
  fun start =>
    { SUCCESS := true,
      results := some { hit := some ((recs.drop start).take ps), found := some recs.length } }

/-- Whether an optional edge character is absent or a non-whitespace char. -/
def edgeOk : Option Char → Bool
  | none => true
  | some c => !pyIsSpace c

/-- Neither end of the list is a whitespace character. -/
def noEdgeSpace (l : List Char) : Bool := edgeOk l.head? && edgeOk l.getLast?

/-- The booths rule exactly as the original C3 claim words it: clean every
entry first, then join only the entries that are still non-empty. -/
def boothsSpecOriginal (f : Fields) : String :=
  String.intercalate "; "
    (((pyOrList f.boothsdisplay_la []).map strip_randomstring).filter (fun b => !b.isEmpty))

/-- The booths rule as amended: entries that are empty before cleanup are
excluded, every surviving entry is cleaned, and the cleaned entries are joined
even when cleanup left them empty. -/
def boothsSpecAmended (f : Fields) : String :=
  String.intercalate "; "
    (((pyOrList f.boothsdisplay_la []).filter (fun b => !b.isEmpty)).map strip_randomstring)

/-- The tags rule exactly as the original C5 claim words it: use the
exhtags_la list whenever that field is present, else the tags list whenever
that field is present, else the empty list. -/
def tagsSpecOriginal (f : Fields) : String :=
  String.intercalate "; "
    (match f.exhtags_la with
     | some l => l
     | none =>
       match f.tags with
       | some m => m
       | none => [])

/-- The tags rule as amended: a present-but-empty exhtags_la list is skipped
just like an absent one, falling through to tags under the same rule. -/
def tagsSpecAmended (f : Fields) : String :=
  String.intercalate "; "
    (match f.exhtags_la with
     | some (t :: ts) => t :: ts
     | _ =>
       match f.tags with
       | some (t :: ts) => t :: ts
       | _ => [])

lemma head_dropWhile_false (p : Char → Bool) :
    ∀ (l : List Char) (c : Char), (l.dropWhile p).head? = some c → p c = false := by
  intro l
  induction l with
  | nil => intro c h; simp [List.dropWhile] at h
  | cons a t ih =>
    intro c h
    by_cases hp : p a = true
    · rw [List.dropWhile_cons_of_pos hp] at h
      exact ih c h
    · rw [List.dropWhile_cons_of_neg hp] at h
      simp only [List.head?_cons, Option.some.injEq] at h
      subst h
      exact Bool.eq_false_iff.mpr hp

lemma dropWhile_decomp (p : Char → Bool) (l : List Char) :
    ∃ w, l.dropWhile p = ((l.dropWhile p).reverse.dropWhile p).reverse ++ w := by
  refine ⟨(List.takeWhile p (l.dropWhile p).reverse).reverse, ?_⟩
  have h := congrArg List.reverse (List.takeWhile_append_dropWhile p (l.dropWhile p).reverse)
  rw [List.reverse_append, List.reverse_reverse] at h
  exact h.symm

lemma pyStrip_head (l : List Char) (c : Char) (h : (pyStrip l).head? = some c) :
    pyIsSpace c = false := by
  obtain ⟨w, hw⟩ := dropWhile_decomp pyIsSpace l
  have hu : (l.dropWhile pyIsSpace).head? = some c := by
    rw [hw, List.head?_append]
    unfold pyStrip at h
    rw [h]
    rfl
  exact head_dropWhile_false pyIsSpace l c hu

lemma pyStrip_getLast (l : List Char) (c : Char) (h : (pyStrip l).getLast? = some c) :
    pyIsSpace c = false := by
  unfold pyStrip at h
  rw [List.getLast?_reverse] at h
  exact head_dropWhile_false pyIsSpace (l.dropWhile pyIsSpace).reverse c h

lemma noEdgeSpace_pyStrip (l : List Char) : noEdgeSpace (pyStrip l) = true := by
  have h1 : edgeOk (pyStrip l).head? = true := by
    cases hh : (pyStrip l).head? with
    | none => rfl
    | some c =>
      have := pyStrip_head l c hh
      simp [edgeOk, this]
  have h2 : edgeOk (pyStrip l).getLast? = true := by
    cases hh : (pyStrip l).getLast? with
    | none => rfl
    | some c =>
      have := pyStrip_getLast l c hh
      simp [edgeOk, this]
  simp [noEdgeSpace, h1, h2]

lemma prefixOf_append {p l : List Char} (m : List Char) (h : p.isPrefixOf l = true) :
    p.isPrefixOf (l ++ m) = true := by
  rw [List.isPrefixOf_iff_prefix] at h ⊢
  exact h.trans (List.prefix_append l m)

lemma hasRS_append_left (l m : List Char) (h : hasRS l = true) : hasRS (l ++ m) = true := by
  induction l with
  | nil => simp [hasRS] at h
  | cons c t ih =>
    rw [List.cons_append, hasRS]
    rw [hasRS] at h
    rcases Bool.or_eq_true_iff.mp h with h1 | h1
    · rw [← List.cons_append]
      rw [prefixOf_append m h1]
      rfl
    · rw [ih h1]
      simp

lemma hasRS_append_right (l m : List Char) (h : hasRS m = true) : hasRS (l ++ m) = true := by
  induction l with
  | nil => exact h
  | cons c t ih =>
    rw [List.cons_append, hasRS, ih]
    simp

lemma hasRS_append_false {l m : List Char} (h : hasRS (l ++ m) = false) :
    hasRS l = false ∧ hasRS m = false := by
  constructor
  · cases hl : hasRS l with
    | false => rfl
    | true => rw [hasRS_append_left l m hl] at h; exact absurd h (by simp)
  · cases hm : hasRS m with
    | false => rfl
    | true => rw [hasRS_append_right l m hm] at h; exact absurd h (by simp)

lemma removeRSFuel_of_no_occurrence :
    ∀ (fuel : Nat) (l : List Char), hasRS l = false → removeRSFuel fuel l = l := by
  intro fuel
  induction fuel with
  | zero => intro l _; rfl
  | succ n ih =>
    intro l h
    cases l with
    | nil => rfl
    | cons c t =>
      rw [hasRS] at h
      obtain ⟨h1, h2⟩ := Bool.or_eq_false_iff.mp h
      rw [removeRSFuel, if_neg (by simp [h1]), ih t h2]

lemma removeRS_of_no_occurrence {l : List Char} (h : hasRS l = false) : removeRS l = l :=
  removeRSFuel_of_no_occurrence l.length l h

lemma hasRS_dropWhile (p : Char → Bool) (l : List Char) (h : hasRS l = false) :
    hasRS (l.dropWhile p) = false := by
  have hsplit : hasRS (List.takeWhile p l ++ List.dropWhile p l) = false := by
    rw [List.takeWhile_append_dropWhile]; exact h
  exact (hasRS_append_false hsplit).2

lemma hasRS_pyStrip (l : List Char) (h : hasRS l = false) : hasRS (pyStrip l) = false := by
  have h1 : hasRS (l.dropWhile pyIsSpace) = false := hasRS_dropWhile pyIsSpace l h
  obtain ⟨w, hw⟩ := dropWhile_decomp pyIsSpace l
  rw [hw] at h1
  exact (hasRS_append_false h1).1

/-- C2 (counterexample): the claim that strip_randomstring output never
contains "randomstring" is false: the single replacement pass on the input
"randomrandomstringstring" removes the inner occurrence and thereby glues the
surrounding fragments into a fresh occurrence, so the output is exactly
"randomstring". -/
theorem spec_C2_cex :
    strip_randomstring "randomrandomstringstring" = "randomstring" ∧
    hasRS (strip_randomstring "randomrandomstringstring").data = true := by
  constructor
  · decide
  · decide

/-- C2 (amended): for every input string the output of strip_randomstring has
no leading or trailing whitespace; and whenever the input contains no
occurrence of "randomstring", neither does the output.  (The original
universal no-occurrence guarantee fails because the removal is a single
left-to-right pass; see the counterexample.) -/
theorem spec_C2_amended (s : String) :
    noEdgeSpace (strip_randomstring s).data = true ∧
    (hasRS s.data = false → hasRS (strip_randomstring s).data = false) := by
  have hdata : (strip_randomstring s).data = pyStrip (removeRS s.data) := rfl
  constructor
  · rw [hdata]
    exact noEdgeSpace_pyStrip (removeRS s.data)
  · intro h
    rw [hdata, removeRS_of_no_occurrence h]
    exact hasRS_pyStrip s.data h

/-- Witness for spec_C2_amended at the concrete input "  hello  ". -/
theorem spec_C2_amended_witness :
    noEdgeSpace (strip_randomstring "  hello  ").data = true ∧
    hasRS (strip_randomstring "  hello  ").data = false :=
  ⟨(spec_C2_amended "  hello  ").1, (spec_C2_amended "  hello  ").2 (by decide)⟩

/-- C3 (counterexample): for the record whose booth list is
["A", "randomstring"], the code keeps the second entry (it is non-empty
before cleanup) and joins its cleaned empty remnant, producing "A; ", while
the claim's rule (exclude entries that become empty after cleanup) yields
"A". -/
theorem spec_C3_cex :
    rowValue
        (hit_to_row ⟨some { emptyFields with boothsdisplay_la := some ["A", "randomstring"] }⟩)
        "booths" = "A; " ∧
    boothsSpecOriginal { emptyFields with boothsdisplay_la := some ["A", "randomstring"] } = "A" := by
  constructor
  · decide
  · decide

/-- C3 (amended): for every record, the flattened booths field takes the
booth-display list (empty if absent), drops the entries that are empty before
cleanup, cleans each remaining entry with strip_randomstring, and joins the
results with "; " — entries that become empty only through cleanup stay in
the join as empty segments. -/
theorem spec_C3_amended (h : Hit) :
    rowValue (hit_to_row h) "booths" = boothsSpecAmended (h.fields.getD emptyFields) := by
  cases h with
  | mk fields =>
    cases fields with
    | none => rfl
    | some f => rfl

/-- C5 (counterexample): for the record with exhtags_la present as the empty
list and tags present as ["x"], the code's truthiness fallback produces "x",
while the claim's presence-based rule joins the empty exhtags_la list and
produces "". -/
theorem spec_C5_cex :
    rowValue (hit_to_row ⟨some { emptyFields with exhtags_la := some [], tags := some ["x"] }⟩)
        "tags" = "x" ∧
    tagsSpecOriginal { emptyFields with exhtags_la := some [], tags := some ["x"] } = "" := by
  constructor
  · decide
  · decide

/-- C5 (amended): for every record, the flattened tags field is the "; "-join
of the exhtags_la list when that field is present and non-empty, else of the
tags list when that field is present and non-empty, else of the empty list;
both field names are accepted as inputs. -/
theorem spec_C5_amended (h : Hit) :
    rowValue (hit_to_row h) "tags" = tagsSpecAmended (h.fields.getD emptyFields) := by
  cases h with
  | mk fields =>
    cases fields with
    | none => rfl
    | some f =>
      rcases f with ⟨_, _, et, tg, _, _, _, _, _, _, _, _, _⟩
      rcases et with _ | ⟨_ | ⟨t, ts⟩⟩ <;> rcases tg with _ | ⟨_ | ⟨u, us⟩⟩ <;> rfl

/-- C8 (confirmed): hit_to_row is total by construction (it is a Lean
function on all of Hit); for every hit — whatever fields are present or
absent — it returns exactly the twelve named string fields in the fixed
order; for every hit, each output field whose source fields are all absent
is the empty string (the tags field has the two alternative source fields);
and the hit with every source field absent maps to the empty string in every
field. -/
theorem spec_C8 :
    (∀ h : Hit, (hit_to_row h).map Prod.fst = rowFieldnames ∧ (hit_to_row h).length = 12) ∧
    (∀ h : Hit,
      ((h.fields.getD emptyFields).exhid_l = none →
        rowValue (hit_to_row h) "exhibitor_id" = "") ∧
      ((h.fields.getD emptyFields).exhname_t = none → rowValue (hit_to_row h) "name" = "") ∧
      ((h.fields.getD emptyFields).boothsdisplay_la = none →
        rowValue (hit_to_row h) "booths" = "") ∧
      ((h.fields.getD emptyFields).hallid_la = none → rowValue (hit_to_row h) "hall" = "") ∧
      ((h.fields.getD emptyFields).exhdesc_t = none →
        rowValue (hit_to_row h) "description" = "") ∧
      ((h.fields.getD emptyFields).seekfunding_t = none →
        rowValue (hit_to_row h) "seeking_funding" = "") ∧
      ((h.fields.getD emptyFields).fundingamount_t = none →
        rowValue (hit_to_row h) "funding_amount" = "") ∧
      ((h.fields.getD emptyFields).investmentstage_l = none →
        rowValue (hit_to_row h) "investment_stage" = "") ∧
      ((h.fields.getD emptyFields).revenue_t = none →
        rowValue (hit_to_row h) "revenue" = "") ∧
      ((h.fields.getD emptyFields).exhlogo_t = none →
        rowValue (hit_to_row h) "logo_file" = "") ∧
      ((h.fields.getD emptyFields).exhfeatured_t = none →
        rowValue (hit_to_row h) "featured" = "") ∧
      ((h.fields.getD emptyFields).exhtags_la = none →
        (h.fields.getD emptyFields).tags = none → rowValue (hit_to_row h) "tags" = "")) ∧
    hit_to_row { fields := none } = rowFieldnames.map (fun n => (n, "")) := by
  refine ⟨fun h => ⟨?_, ?_⟩, fun h => ?_, ?_⟩
  · cases h with
    | mk fields => cases fields with
      | none => rfl
      | some f => rfl
  · cases h with
    | mk fields => cases fields with
      | none => rfl
      | some f => rfl
  · cases h with
    | mk fields => cases fields with
      | none =>
        exact ⟨fun _ => rfl, fun _ => rfl, fun _ => rfl, fun _ => rfl, fun _ => rfl,
          fun _ => rfl, fun _ => rfl, fun _ => rfl, fun _ => rfl, fun _ => rfl,
          fun _ => rfl, fun _ _ => rfl⟩
      | some f =>
        rcases f with ⟨bd, hl, et, tg, ei, nm, ds, sf, fa, ivs, rv, lg, ft⟩
        refine ⟨?_, ?_, ?_, ?_, ?_, ?_, ?_, ?_, ?_, ?_, ?_, ?_⟩ <;>
          first
          | (intro hx hy; subst hx; subst hy; rfl)
          | (intro hx; subst hx; rfl)
  · decide

/-- Witness for spec_C8 at a record with only the name field present: the
schema is the fixed one and the absent-field defaults hold, including the
tags field with both of its source fields absent. -/
theorem spec_C8_witness :
    (hit_to_row ⟨some { emptyFields with exhname_t := some "ACME" }⟩).map Prod.fst =
      rowFieldnames ∧
    rowValue (hit_to_row ⟨some { emptyFields with exhname_t := some "ACME" }⟩)
      "exhibitor_id" = "" ∧
    rowValue (hit_to_row ⟨some { emptyFields with exhname_t := some "ACME" }⟩) "tags" = "" :=
  ⟨(spec_C8.1 ⟨some { emptyFields with exhname_t := some "ACME" }⟩).1,
   (spec_C8.2.1 ⟨some { emptyFields with exhname_t := some "ACME" }⟩).1 rfl,
   (spec_C8.2.1
       ⟨some { emptyFields with exhname_t := some "ACME" }⟩).2.2.2.2.2.2.2.2.2.2.2 rfl rfl⟩

/-- C6 (confirmed): at any point of the pagination, a response whose success
flag is false makes the fetch stop immediately with the fatal search-failure
error (one request is consumed and none is retried), discarding the partial
accumulator — the error outcome carries no record sequence; and whenever the
fetch ends in that error, the pipeline writes no output file. -/
theorem spec_C6 :
    (∀ (server : Nat → Payload) (fuel start r : Nat) (hits : List Hit),
        (server start).SUCCESS = false →
        fetchLoop server (fuel + 1) start hits r = .searchFailed (r + 1)) ∧
    (∀ (server : Nat → Payload) (fuel n : Nat),
        fetch_exhibitors server fuel = .searchFailed n → runPipeline server fuel = none) := by
  constructor
  · intro server fuel start r hits h
    simp [fetchLoop, h]
  · intro server fuel n h
    unfold runPipeline
    rw [h]

/-- Witness for spec_C6: a server that always answers with success = false. -/
theorem spec_C6_witness :
    fetchLoop (fun _ => { SUCCESS := false }) 1 0 [] 0 = .searchFailed 1 ∧
    runPipeline (fun _ => { SUCCESS := false }) 1 = none :=
  ⟨spec_C6.1 (fun _ => { SUCCESS := false }) 0 0 0 [] rfl,
   spec_C6.2 (fun _ => { SUCCESS := false }) 1 1 (by decide)⟩

/-- C9 (counterexample): a successful response whose results section is
present but carries neither a hit list nor a found count does not abort the
run — both lookups fall back to defaults and the fetch completes normally
with an empty accumulator, against the claim that such missing structure is
fatal. -/
theorem spec_C9_cex :
    fetch_exhibitors (fun _ => { SUCCESS := true, results := some {} }) 1 = .ok [] 1 0 0 ∧
    runPipeline (fun _ => { SUCCESS := true, results := some {} }) 1 =
      some [rowFieldnames] := by
  constructor
  · decide
  · decide

/-- C9 (amended): a response that parses but is missing the DATA, results, or
section structure aborts the fetch fatally with a key error, and the pipeline
then writes no output file; by contrast, inside the results section a missing
hit list defaults to the empty list and a missing found count defaults to the
accumulated count, so neither is fatal (see the counterexample). -/
theorem spec_C9_amended :
    (∀ (server : Nat → Payload) (fuel start r : Nat) (hits : List Hit),
        (server start).SUCCESS = true → (server start).results = none →
        fetchLoop server (fuel + 1) start hits r = .keyError (r + 1)) ∧
    (∀ (server : Nat → Payload) (fuel n : Nat),
        fetch_exhibitors server fuel = .keyError n → runPipeline server fuel = none) := by
  constructor
  · intro server fuel start r hits h1 h2
    simp [fetchLoop, h1, h2]
  · intro server fuel n h
    unfold runPipeline
    rw [h]

/-- Witness for spec_C9_amended: a server whose successful payload has no
results structure. -/
theorem spec_C9_amended_witness :
    fetchLoop (fun _ => { SUCCESS := true, results := none }) 1 0 [] 0 = .keyError 1 ∧
    runPipeline (fun _ => { SUCCESS := true, results := none }) 1 = none :=
  ⟨spec_C9_amended.1 (fun _ => { SUCCESS := true, results := none }) 0 0 0 [] rfl rfl,
   spec_C9_amended.2 (fun _ => { SUCCESS := true, results := none }) 1 1 (by decide)⟩

/-- C10 (confirmed): when a successful response's results section omits the
found count, the total defaults to the length of the accumulated list after
extending it with the page's batch; the updated offset equals that same
length (given the loop invariant that the offset entering the iteration
equals the accumulated count), so the stop condition holds and pagination
ends after this page without error. -/
theorem spec_C10 (server : Nat → Payload) (fuel start r : Nat) (hits : List Hit)
    (res : SectionResult) (hS : (server start).SUCCESS = true)
    (hR : (server start).results = some res) (hF : res.found = none)
    (hInv : start = hits.length) :
    fetchLoop server (fuel + 1) start hits r =
      .ok (hits ++ res.hit.getD []) (r + 1) (hits.length + (res.hit.getD []).length)
        (res.hit.getD []).length := by
  subst hInv
  simp [fetchLoop, hS, hR, hF, List.length_append]

/-- Witness for spec_C10: a server whose response has one hit and no found
count; the fetch stops after that single page. -/
theorem spec_C10_witness :
    fetchLoop (fun _ => { SUCCESS := true, results := some { hit := some [{}] } }) 1 0 [] 0 =
      .ok [{}] 1 1 1 :=
  spec_C10 (fun _ => { SUCCESS := true, results := some { hit := some [{}] } }) 0 0 0 [] _
    rfl rfl rfl rfl

lemma fetchLoop_failed_step (server : Nat → Payload) (fuel start r : Nat) (hits : List Hit)
    (hS : (server start).SUCCESS = false) :
    fetchLoop server (fuel + 1) start hits r = .searchFailed (r + 1) := by
  simp [fetchLoop, hS]

lemma fetchLoop_keyError_step (server : Nat → Payload) (fuel start r : Nat) (hits : List Hit)
    (hS : (server start).SUCCESS = true) (hR : (server start).results = none) :
    fetchLoop server (fuel + 1) start hits r = .keyError (r + 1) := by
  simp [fetchLoop, hS, hR]

lemma fetchLoop_page_step (server : Nat → Payload) (fuel start r : Nat) (hits : List Hit)
    (res : SectionResult) (hS : (server start).SUCCESS = true)
    (hR : (server start).results = some res) :
    fetchLoop server (fuel + 1) start hits r =
      if start + (res.hit.getD []).length ≥ res.found.getD (hits ++ res.hit.getD []).length
          || (res.hit.getD []).isEmpty then
        .ok (hits ++ res.hit.getD []) (r + 1)
          (res.found.getD (hits ++ res.hit.getD []).length) (res.hit.getD []).length
      else
        fetchLoop server fuel (start + (res.hit.getD []).length) (hits ++ res.hit.getD [])
          (r + 1) := by
  have h0 : fetchLoop server (fuel + 1) start hits r =
      if (server start).SUCCESS = false then .searchFailed (r + 1)
      else
        match (server start).results with
        | none => .keyError (r + 1)
        | some result =>
          let batch := result.hit.getD []
          let hits2 := hits ++ batch
          let total := result.found.getD hits2.length
          let start2 := start + batch.length
          if start2 ≥ total || batch.isEmpty then .ok hits2 (r + 1) total batch.length
          else fetchLoop server fuel start2 hits2 (r + 1) := rfl
  rw [h0, if_neg (by simp [hS]), hR]

/-- C7 (confirmed): for a successful, well-formed page the loop stops exactly
when the advanced offset reaches the reported total or the page's batch is
empty — it returns the extended accumulator in the first case and otherwise
continues with the advanced state; and an empty page received while the
offset is still below the reported total ends pagination at that page
without error, with fewer accumulated records than the reported total. -/
theorem spec_C7 (server : Nat → Payload) (fuel start r : Nat) (hits : List Hit)
    (res : SectionResult) (hS : (server start).SUCCESS = true)
    (hR : (server start).results = some res) :
    (start + (res.hit.getD []).length ≥ res.found.getD (hits ++ res.hit.getD []).length ∨
        res.hit.getD [] = [] →
      fetchLoop server (fuel + 1) start hits r =
        .ok (hits ++ res.hit.getD []) (r + 1)
          (res.found.getD (hits ++ res.hit.getD []).length) (res.hit.getD []).length) ∧
    (start + (res.hit.getD []).length < res.found.getD (hits ++ res.hit.getD []).length ∧
        res.hit.getD [] ≠ [] →
      fetchLoop server (fuel + 1) start hits r =
        fetchLoop server fuel (start + (res.hit.getD []).length) (hits ++ res.hit.getD [])
          (r + 1)) ∧
    (res.hit.getD [] = [] → start = hits.length → start < res.found.getD hits.length →
      fetchLoop server (fuel + 1) start hits r =
        .ok hits (r + 1) (res.found.getD hits.length) 0 ∧
      hits.length < res.found.getD hits.length) := by
  refine ⟨?_, ?_, ?_⟩
  · intro hcond
    rw [fetchLoop_page_step server fuel start r hits res hS hR]
    rcases hcond with hge | hemp
    · rw [if_pos (Bool.or_eq_true_iff.mpr (Or.inl (decide_eq_true hge)))]
    · rw [if_pos (Bool.or_eq_true_iff.mpr (Or.inr (by rw [hemp]; rfl)))]
  · intro hcond
    obtain ⟨hlt, hne⟩ := hcond
    rw [fetchLoop_page_step server fuel start r hits res hS hR]
    have hc : (decide (start + (res.hit.getD []).length ≥
        res.found.getD (hits ++ res.hit.getD []).length) ||
        (res.hit.getD []).isEmpty) = false :=
      Bool.or_eq_false_iff.mpr
        ⟨decide_eq_false (by omega),
         Bool.eq_false_iff.mpr (fun hh => hne (List.isEmpty_iff.mp hh))⟩
    rw [if_neg (by rw [hc]; exact Bool.false_ne_true)]
  · intro hemp hInv hlt
    refine ⟨?_, ?_⟩
    · rw [fetchLoop_page_step server fuel start r hits res hS hR]
      rw [if_pos (Bool.or_eq_true_iff.mpr (Or.inr (by rw [hemp]; rfl)))]
      rw [hemp]
      simp
    · omega

/-- Witness for spec_C7 at a concrete empty page with reported total 5. -/
theorem spec_C7_witness :
    fetchLoop (fun _ => { SUCCESS := true, results := some { found := some 5 } }) 1 0 [] 0 =
      .ok [] 1 5 0 ∧ ([] : List Hit).length < 5 :=
  (spec_C7 (fun _ => { SUCCESS := true, results := some { found := some 5 } }) 0 0 0 []
    { found := some 5 } rfl rfl).2.2 rfl rfl (by decide)

/-- C1 (counterexample): a run that completes without error can accumulate
MORE records than the last reported found count while its final page is
non-empty: a server reporting found = 0 yet returning one hit yields one
accumulated record, a last reported total of 0, and a last batch of length 1,
falsifying the claimed equality-or-empty-page disjunction. -/
theorem spec_C1_cex :
    fetch_exhibitors
        (fun _ => { SUCCESS := true, results := some { hit := some [{}], found := some 0 } }) 1 =
      .ok [{}] 1 0 1 ∧
    ¬(([({} : Hit)].length = 0) ∨ (1 : Nat) = 0) := by
  constructor
  · decide
  · decide

/-- C1 (amended): for every run of the paginator that completes without
error, the accumulated record sequence is at least as long as the
server-reported found count of the last successful page fetch, or pagination
stopped early because the most recent page contained zero records.  (The
original equality fails when a page extends past the reported count; see the
counterexample.) -/
theorem spec_C1_amended :
    ∀ (fuel : Nat) (server : Nat → Payload) (start r : Nat) (hits hits2 : List Hit)
      (n t bl : Nat), start = hits.length →
      fetchLoop server fuel start hits r = .ok hits2 n t bl →
      t ≤ hits2.length ∨ bl = 0 := by
  intro fuel
  induction fuel with
  | zero =>
    intro server start r hits hits2 n t bl _ h
    simp [fetchLoop] at h
  | succ fuel ih =>
    intro server start r hits hits2 n t bl hInv h
    cases hS : (server start).SUCCESS with
    | false =>
      rw [fetchLoop_failed_step server fuel start r hits hS] at h
      simp at h
    | true =>
      cases hRes : (server start).results with
      | none =>
        rw [fetchLoop_keyError_step server fuel start r hits hS hRes] at h
        simp at h
      | some res =>
        rw [fetchLoop_page_step server fuel start r hits res hS hRes] at h
        by_cases hc :
            (decide (start + (res.hit.getD []).length ≥
                res.found.getD (hits ++ res.hit.getD []).length) ||
              (res.hit.getD []).isEmpty) = true
        · rw [if_pos hc] at h
          rw [FetchOutcome.ok.injEq] at h
          obtain ⟨h1, _, h3, h4⟩ := h
          rcases Bool.or_eq_true_iff.mp hc with hge | hemp
          · left
            have hge2 := of_decide_eq_true hge
            have hlen := List.length_append hits (res.hit.getD [])
            rw [← h1, ← h3]
            omega
          · right
            rw [← h4, List.isEmpty_iff.mp hemp]
            rfl
        · rw [if_neg hc] at h
          exact ih server (start + (res.hit.getD []).length) (r + 1)
            (hits ++ res.hit.getD []) hits2 n t bl (by rw [List.length_append, hInv]) h

/-- Witness for spec_C1_amended at a concrete one-page run. -/
theorem spec_C1_amended_witness :
    fetchLoop (wellBehaved [{}] 1) 2 0 [] 0 = .ok [{}] 1 1 1 ∧
    (1 ≤ [({} : Hit)].length ∨ (1 : Nat) = 0) :=
  ⟨by decide, spec_C1_amended 2 (wellBehaved [{}] 1) 0 0 [] [{}] 1 1 1 rfl (by decide)⟩

lemma wb_run (recs : List Hit) (ps : Nat) (hps : 0 < ps) :
    ∀ (fuel : Nat), ∀ (start r : Nat), start ≤ recs.length → recs.length - start < fuel →
    ∃ bl, fetchLoop (wellBehaved recs ps) fuel start (recs.take start) r =
      .ok recs
        (r + (if recs.length - start = 0 then 1 else (recs.length - start + ps - 1) / ps))
        recs.length bl := by
  intro fuel
  induction fuel with
  | zero =>
    intro start r h1 h2
    omega
  | succ fuel ih =>
    intro start r hle hfuel
    have hS : (wellBehaved recs ps start).SUCCESS = true := rfl
    have hR : (wellBehaved recs ps start).results =
        some { hit := some ((recs.drop start).take ps), found := some recs.length } := rfl
    rw [fetchLoop_page_step (wellBehaved recs ps) fuel start r (recs.take start) _ hS hR]
    simp only [Option.getD_some]
    by_cases hm : recs.length - start = 0
    · have hstart : recs.length ≤ start := by omega
      have hB : (recs.drop start).take ps = [] := by
        rw [List.drop_of_length_le hstart, List.take_nil]
      rw [hB]
      refine ⟨0, ?_⟩
      have hTake : recs.take start = recs := List.take_of_length_le hstart
      rw [hTake]
      simp [hm]
    · by_cases hsmall : recs.length - start ≤ ps
      · have hB : (recs.drop start).take ps = recs.drop start :=
          List.take_of_length_le (by rw [List.length_drop]; omega)
        rw [hB]
        have hBlen : (recs.drop start).length = recs.length - start := List.length_drop _ _
        refine ⟨(recs.drop start).length, ?_⟩
        rw [if_pos (Bool.or_eq_true_iff.mpr (Or.inl (decide_eq_true (by omega))))]
        rw [List.take_append_drop]
        rw [if_neg hm]
        have hdiv : (recs.length - start + ps - 1) / ps = 1 :=
          Nat.div_eq_of_lt_le (by omega) (by omega)
        rw [hdiv]
      · have hB : ((recs.drop start).take ps).length = ps := by
          rw [List.length_take, List.length_drop]
          omega
        have hcond : (decide (start + ((recs.drop start).take ps).length ≥ recs.length) ||
            ((recs.drop start).take ps).isEmpty) = false := by
          apply Bool.or_eq_false_iff.mpr
          constructor
          · exact decide_eq_false (by omega)
          · apply Bool.eq_false_iff.mpr
            intro hh
            have hnil := List.isEmpty_iff.mp hh
            rw [hnil] at hB
            simp at hB
            omega
        rw [if_neg (by rw [hcond]; exact Bool.false_ne_true)]
        rw [hB]
        have hconcat : recs.take start ++ (recs.drop start).take ps = recs.take (start + ps) :=
          (List.take_add recs start ps).symm
        rw [hconcat]
        obtain ⟨bl, hbl⟩ := ih (start + ps) (r + 1) (by omega) (by omega)
        refine ⟨bl, ?_⟩
        rw [hbl]
        have hreq : (r + 1) + (if recs.length - (start + ps) = 0 then 1
            else (recs.length - (start + ps) + ps - 1) / ps) =
            r + (if recs.length - start = 0 then 1 else (recs.length - start + ps - 1) / ps) := by
          rw [if_neg (by omega), if_neg hm]
          have e1 : recs.length - (start + ps) + ps - 1 = recs.length - start - 1 := by omega
          have e2 : recs.length - start + ps - 1 = (recs.length - start - 1) + ps := by omega
          rw [e1, e2, Nat.add_div_right _ hps]
          omega
        rw [hreq]

/-- C4 (counterexample): for a well-behaved server holding zero records and a
page size of 200, the code still issues one search request (the loop body
always runs at least once), while the claimed request count
ceil(0 / 200) = (0 + 200 - 1) / 200 is zero. -/
theorem spec_C4_cex :
    fetch_exhibitors (wellBehaved [] 200) 1 = .ok [] 1 0 0 ∧ (0 + 200 - 1) / 200 = 0 := by
  constructor
  · decide
  · decide

/-- C4 (amended): for every well-behaved server holding N total records and
every positive page size, fetch_exhibitors accumulates exactly the N records
and issues exactly ceil(N / page_size) search requests when N > 0, and
exactly one request when N = 0 (the loop always performs the first fetch
before it can observe that there is nothing to collect). -/
theorem spec_C4_amended (recs : List Hit) (ps : Nat) (hps : 0 < ps) :
    ∃ bl, fetch_exhibitors (wellBehaved recs ps) (recs.length + 1) =
      .ok recs (if recs.length = 0 then 1 else (recs.length + ps - 1) / ps)
        recs.length bl := by
  have h := wb_run recs ps hps (recs.length + 1) 0 0 (Nat.zero_le _) (by omega)
  simpa [fetch_exhibitors] using h

/-- Witness for spec_C4_amended: three records served at page size two are
fetched whole in ceil(3 / 2) = 2 requests. -/
theorem spec_C4_amended_witness :
    ∃ bl, fetch_exhibitors (wellBehaved [{}, {}, {}] 2) ([({} : Hit), {}, {}].length + 1) =
      .ok [{}, {}, {}]
        (if [({} : Hit), {}, {}].length = 0 then 1
         else ([({} : Hit), {}, {}].length + 2 - 1) / 2)
        [({} : Hit), {}, {}].length bl :=
  spec_C4_amended [{}, {}, {}] 2 (by decide)

end CesCrawler
